import Mathlib

/-!
Shallow embedding of the `expose-vscode` extension core
(`src/installer.ts` and the extension module): the asset resolver,
the binary provisioner, the configuration resolver (argument-vector
construction, password resolution) and the process supervisor
(start / stop / one-off run / process event handlers).

JavaScript strings are modelled as `String`; `undefined`-able values as
`Option`; the settings store (`vscode.workspace.getConfiguration`) and
the optional JSON config file as records of `Option` fields.  JS `??`
is `Option.getD`-style fall-through on `none` only (an empty string is
NOT nullish and does not fall through); JS string truthiness is
`≠ ""`, number truthiness is `≠ 0`.
-/

namespace Expose

/-- `sub` is a prefix of `s` (over character lists); building block for
the model of JS `String.prototype.includes`. -/
def leadsWith : List Char → List Char → Bool
  | [], _ => true
  | _ :: _, [] => false
  | a :: as, b :: bs => a == b && leadsWith as bs

/-- `sub` occurs as a contiguous run inside `s` (character lists). -/
def hasSubL (sub : List Char) : List Char → Bool
  | [] => sub.isEmpty
  | c :: cs => leadsWith sub (c :: cs) || hasSubL sub cs

/-- Model of JS `s.includes(sub)`. -/
def strIncludes (s sub : String) : Bool :=
  hasSubL sub.data s.data

/-- ASCII whitespace, the whitespace relevant to the strings this
program trims and splits. -/
def isWsChar (c : Char) : Bool :=
  c == ' ' || c == '\t' || c == '\n' || c == '\r'

/-- Model of JS `s.trim()` (kernel-reducible, over character lists). -/
def strTrim (s : String) : String :=
  ⟨((s.data.dropWhile isWsChar).reverse.dropWhile isWsChar).reverse⟩

/-- ASCII lowercasing of one character. -/
def asciiLower (c : Char) : Char :=
  if 'A' ≤ c ∧ c ≤ 'Z' then Char.ofNat (c.toNat + 32) else c

/-- Model of JS lowercasing (ASCII; asset names are ASCII). -/
def strLower (s : String) : String :=
  ⟨s.data.map asciiLower⟩

/-- GitHub release asset (`GHAsset` in `installer.ts`). -/
structure GHAsset where
  id : Nat
  name : String
  browser_download_url : String
deriving DecidableEq, Repr

/-- The `osPart` normalisation in `pickAsset` (installer.ts:15-22):
`win32 ↦ windows`, `darwin ↦ darwin`, `linux ↦ linux`, passthrough
otherwise. -/
def normOs (platform : String) : String :=
  if platform = "win32" then "windows"
  else if platform = "darwin" then "darwin"
  else if platform = "linux" then "linux"
  else platform

/-- The `archPart` normalisation in `pickAsset` (installer.ts:24-31):
`x64 ↦ amd64`, `arm64 ↦ arm64`, `arm ↦ arm`, passthrough otherwise. -/
def normArch (arch : String) : String :=
  if arch = "x64" then "amd64"
  else if arch = "arm64" then "arm64"
  else if arch = "arm" then "arm"
  else arch

/-- The ordered candidate names of `pickAsset` (installer.ts:33-37). -/
def candidates (osPart archPart : String) : List String :=
  ["expose_" ++ osPart ++ "_" ++ archPart,
   "expose-" ++ osPart ++ "-" ++ archPart,
   "expose_" ++ archPart ++ "_" ++ osPart]

/-- The candidate loop of `pickAsset` (installer.ts:39-42): for each
candidate in order, an exact name match first, then a
substring-contains match, returning on the first hit. -/
def findCandidate (assets : List GHAsset) : List String → Option GHAsset
  | [] => none
  | w :: ws =>
    match assets.find? (fun a => a.name == w) with
    | some a => some a
    | none =>
      match assets.find? (fun a => strIncludes a.name w) with
      | some a => some a
      | none => findCandidate assets ws

/-- The broad fallback predicate of `pickAsset` (installer.ts:44):
name contains "expose" case-insensitively, and contains both the OS
token and the arch token. -/
def broadMatch (osPart archPart : String) (a : GHAsset) : Bool :=
  strIncludes (strLower a.name) "expose" && strIncludes a.name osPart
    && strIncludes a.name archPart

/-- `pickAsset` from installer.ts:14-45. -/
def pickAsset (platform arch : String) (assets : List GHAsset) : Option GHAsset :=
  let osPart := normOs platform
  let archPart := normArch arch
  match findCandidate assets (candidates osPart archPart) with
  | some a => some a
  | none => assets.find? (broadMatch osPart archPart)

/-- The VS Code settings store view used by the extension: every
`expose.*` key read through `getCfg` (undefined ↦ `none`). -/
structure Settings where
  path : Option String := none
  autoInstall : Option Bool := none
  cwd : Option String := none
  args : Option (List String) := none
  configFile : Option String := none
  sshHost : Option String := none
  sshPort : Option Nat := none
  localHost : Option String := none
  localPort : Option Nat := none
  bindPort : Option Nat := none
  id : Option String := none
  keepAlive : Option Bool := none
  autoReconnect : Option Bool := none
  legacyPassword : Option String := none
  composeFile : Option String := none
  composeService : Option String := none

/-- `ExposeFileConfig` (extension module lines 8-33): every field of
the optional JSON config file, all optional. -/
structure ExposeFileConfig where
  configVersion : Option Nat := none
  path : Option String := none
  cwd : Option String := none
  autoInstall : Option Bool := none
  composeFile : Option String := none
  composeService : Option String := none
  sshHost : Option String := none
  sshPort : Option Nat := none
  localHost : Option String := none
  localPort : Option Nat := none
  bindPort : Option Nat := none
  id : Option String := none
  password : Option String := none
  keepAlive : Option Bool := none
  autoReconnect : Option Bool := none
  args : Option (List String) := none

/-- `resolveVars` (extension module lines 82-88): substitute
`$\x7bworkspaceFolder\x7d` with the first workspace folder when one
exists and the placeholder occurs; otherwise return the string
unchanged. -/
def resolveVars (workspaceFolder : Option String) (p : String) : String :=
  match workspaceFolder with
  | some folder =>
    if strIncludes p "$\x7bworkspaceFolder\x7d" then
      p.replace "$\x7bworkspaceFolder\x7d" folder
    else p
  | none => p

/-- `getPassword` (extension module lines 105-113): secret storage
wins when its trimmed value is non-empty, else the trimmed legacy
setting. -/
def getPassword (secret : Option String) (s : Settings) : String :=
  let sec := secret.getD ""
  if strTrim sec ≠ "" then strTrim sec
  else strTrim (s.legacyPassword.getD "")

/-- Effective `sshHost` (extension module line 238):
`(fileCfg.sshHost ?? getCfg("expose.sshHost") ?? "getexposed.io").trim()`. -/
def effSshHost (s : Settings) (fc : ExposeFileConfig) : String :=
  strTrim (fc.sshHost.getD (s.sshHost.getD "getexposed.io"))

/-- Effective `sshPort` (line 239). -/
def effSshPort (s : Settings) (fc : ExposeFileConfig) : Nat :=
  fc.sshPort.getD (s.sshPort.getD 2200)

/-- Effective `localHost` (line 241). -/
def effLocalHost (s : Settings) (fc : ExposeFileConfig) : String :=
  strTrim (fc.localHost.getD (s.localHost.getD "localhost"))

/-- Effective `localPort` (line 242). -/
def effLocalPort (s : Settings) (fc : ExposeFileConfig) : Nat :=
  fc.localPort.getD (s.localPort.getD 7500)

/-- Effective `bindPort` (line 244). -/
def effBindPort (s : Settings) (fc : ExposeFileConfig) : Nat :=
  fc.bindPort.getD (s.bindPort.getD 0)

/-- Effective `id` (line 246). -/
def effId (s : Settings) (fc : ExposeFileConfig) : String :=
  strTrim (fc.id.getD (s.id.getD ""))

/-- Effective compose file (line 284):
`(fileCfg.composeFile ?? getCfg("expose.composeFile") ?? "").trim()`;
non-empty selects compose mode. -/
def effComposeFile (s : Settings) (fc : ExposeFileConfig) : String :=
  strTrim (fc.composeFile.getD (s.composeFile.getD ""))

/-- Effective `keepAlive` (line 248):
`!!(fileCfg.keepAlive ?? getCfg("expose.keepAlive"))`. -/
def effKeepAlive (s : Settings) (fc : ExposeFileConfig) : Bool :=
  fc.keepAlive.getD (s.keepAlive.getD false)

/-- Effective `autoReconnect` (line 249). -/
def effAutoReconnect (s : Settings) (fc : ExposeFileConfig) : Bool :=
  fc.autoReconnect.getD (s.autoReconnect.getD false)

/-- The resolved password used for `-pw` (lines 261-262):
`(password || (fileCfg.password ?? "").trim()).trim()` where `password`
is the `getPassword` result. -/
def resolvedPassword (fc : ExposeFileConfig) (password : String) : String :=
  let filePassword := strTrim (fc.password.getD "")
  strTrim (if password = "" then filePassword else password)

/-- The trimmed non-empty extra arg tokens (lines 268-272): file-config
args first, then settings args, each token trimmed, blanks dropped. -/
def cleanExtraArgs (s : Settings) (fc : ExposeFileConfig) : List String :=
  ((fc.args.getD []) ++ (s.args.getD [])).filterMap
    (fun e => if strTrim e = "" then none else some (strTrim e))

/-- `buildArgsFromConfig` (extension module lines 235-275): the pushes
of lines 252-272 in their source order, as list concatenation. -/
def buildArgsFromConfig (s : Settings) (fc : ExposeFileConfig) (password : String) :
    List String :=
  (if effSshHost s fc ≠ "" then ["-s", effSshHost s fc] else []) ++
  (if effSshPort s fc ≠ 0 then ["-p", toString (effSshPort s fc)] else []) ++
  (if effLocalHost s fc ≠ "" then ["-ls", effLocalHost s fc] else []) ++
  (if effLocalPort s fc ≠ 0 then ["-lp", toString (effLocalPort s fc)] else []) ++
  (["-bp", toString (if effBindPort s fc = 0 then 0 else effBindPort s fc)]) ++
  (if effId s fc ≠ "" then ["-id", effId s fc] else []) ++
  (if resolvedPassword fc password ≠ "" then ["-pw", resolvedPassword fc password] else []) ++
  (if effKeepAlive s fc then ["-a"] else []) ++
  (if effAutoReconnect s fc then ["-r"] else []) ++
  cleanExtraArgs s fc

/-- Binary provisioner errors (spec §4.2 / installer.ts throw sites). -/
inductive InstError where
  | notInstalled
  | noAsset
  | networkError
deriving DecidableEq, Repr

/-- Observable side effects of the provisioner, in order of occurrence;
`fetchMeta` and `downloadAsset` are the network operations. -/
inductive Effect where
  | fetchMeta
  | downloadAsset (name : String)
  | copyToFinal
  | chmodFinal
deriving DecidableEq, Repr

/-- The external world the provisioner runs against: managed storage
directory, platform/arch, whether a file already exists at the managed
binary path, the latest-release asset list (`none` = metadata fetch
fails), and whether the asset download succeeds. -/
structure InstallBackend where
  binDir : String
  platform : String
  arch : String
  managedExists : Bool
  release : Option (List GHAsset)
  downloadOk : Bool

/-- `binName` (installer.ts:86). -/
def binName (platform : String) : String :=
  if platform = "win32" then "expose.exe" else "expose"

/-- The deterministic managed binary path (installer.ts:83-87). -/
def managedBinPath (be : InstallBackend) : String :=
  be.binDir ++ "/" ++ binName be.platform

/-- `ensureExpose` (installer.ts:75-113): explicit settings path wins
with no existence check; else the managed path when a file exists
there; else `notInstalled` unless asked to install; else fetch the
latest release, pick an asset, download, copy into place and (not on
Windows) chmod.  Returns the result together with the effects
performed. -/
def ensureExpose (s : Settings) (be : InstallBackend) (installIfMissing : Bool) :
    Except InstError String × List Effect :=
  let userPath := strTrim (s.path.getD "")
  if userPath ≠ "" then (.ok userPath, [])
  else if be.managedExists then (.ok (managedBinPath be), [])
  else if !installIfMissing then (.error .notInstalled, [])
  else
    match be.release with
    | none => (.error .networkError, [.fetchMeta])
    | some assets =>
      match pickAsset be.platform be.arch assets with
      | none => (.error .noAsset, [.fetchMeta])
      | some a =>
        if be.downloadOk then
          (.ok (managedBinPath be),
           [.fetchMeta, .downloadAsset a.name, .copyToFinal] ++
             (if be.platform ≠ "win32" then [.chmodFinal] else []))
        else (.error .networkError, [.fetchMeta, .downloadAsset a.name])

/-- The external collaborators a supervisor operation reads: settings
store, secret store, parsed config file (`none` = unreadable/absent),
workspace folder, home directory, installer backend, whether `spawn`
succeeds, and the value of the one-off-run input box. -/
structure Env where
  settings : Settings
  secret : Option String
  fileCfg : Option ExposeFileConfig
  workspaceFolder : Option String
  homedir : String
  be : InstallBackend
  spawnOk : Bool
  inputBox : Option String

/-- `resolveCwd` (extension module lines 226-233). -/
def resolveCwd (env : Env) (fc : ExposeFileConfig) : String :=
  let setting := strTrim (fc.cwd.getD (env.settings.cwd.getD ""))
  if setting ≠ "" then
    let resolved := resolveVars env.workspaceFolder setting
    if resolved ≠ "" then resolved else env.homedir
  else
    match env.workspaceFolder with
    | some f => if f ≠ "" then f else env.homedir
    | none => env.homedir

/-- `resolveBinary` (extension module lines 207-224): explicit path
(file config, else settings) wins after trimming; else try the
already-installed copy (errors swallowed); else `none` unless
auto-install is on, in which case provision (errors propagate). -/
def resolveBinary (env : Env) (fc : ExposeFileConfig) :
    Except InstError (Option String) :=
  let userPath := strTrim (fc.path.getD (env.settings.path.getD ""))
  if userPath ≠ "" then .ok (some (resolveVars env.workspaceFolder userPath))
  else
    let installPart : Except InstError (Option String) :=
      let autoInstall := fc.autoInstall.getD (env.settings.autoInstall.getD false)
      if !autoInstall then .ok none
      else
        match (ensureExpose env.settings env.be true).1 with
        | .ok p => .ok (some p)
        | .error e => .error e
    match (ensureExpose env.settings env.be false).1 with
    | .ok p => if p ≠ "" then .ok (some p) else installPart
    | .error _ => installPart

/-- Supervisor state: the tracked singleton process reference (`proc`),
the status-bar mode (`statusRunning` = the running text/command/tooltip
triple), and a freshness counter for spawn handles. -/
structure SupState where
  proc : Option Nat
  statusRunning : Bool
  nextHandle : Nat
deriving DecidableEq, Repr

/-- Externally visible actions of a supervisor operation. -/
inductive Action where
  | notifyInfo (m : String)
  | notifyWarn (m : String)
  | notifyError (m : String)
  | spawn (cmd : String) (args : List String) (cwd : String) (handle : Nat)
  | signal (pid : Nat) (sig : String)
  | treeKill (pid : Nat)
deriving DecidableEq, Repr

/-- `startAgent` (extension module lines 277-322): reject when a
process is tracked; else compose mode when the effective compose file
is non-blank, else direct-binary mode; spawn failure resets to Idle
with an error notice. -/
def startAgent (env : Env) (st : SupState) : SupState × List Action :=
  match st.proc with
  | some _ => (st, [.notifyInfo "Expose agent is already running."])
  | none =>
    let fc := env.fileCfg.getD {}
    let composeFile := effComposeFile env.settings fc
    let composeService := strTrim (fc.composeService.getD (env.settings.composeService.getD "expose"))
    let cwd := resolveCwd env fc
    let password := getPassword env.secret env.settings
    if composeFile ≠ "" then
      let cargs := ["compose", "-f", resolveVars env.workspaceFolder composeFile,
                    "up", composeService]
      if env.spawnOk then
        ({ proc := some st.nextHandle, statusRunning := true,
           nextHandle := st.nextHandle + 1 },
         [.spawn "docker" cargs cwd st.nextHandle])
      else
        ({ st with proc := none, statusRunning := false },
         [.notifyError "Expose: failed to start"])
    else
      match resolveBinary env fc with
      | .error _ =>
        ({ st with proc := none, statusRunning := false },
         [.notifyError "Expose: failed to start"])
      | .ok none =>
        (st, [.notifyWarn "Expose: no expose.path set and auto-install is disabled."])
      | .ok (some bin) =>
        let args := buildArgsFromConfig env.settings fc password
        if env.spawnOk then
          ({ proc := some st.nextHandle, statusRunning := true,
             nextHandle := st.nextHandle + 1 },
           [.spawn bin args cwd st.nextHandle])
        else
          ({ st with proc := none, statusRunning := false },
           [.notifyError "Expose: failed to start"])

/-- Result of `stopAgent`: the new state, the kill actions performed
now, and whether the 1500ms SIGKILL escalation timer was scheduled. -/
structure StopOut where
  state : SupState
  actions : List Action
  timerScheduled : Bool
deriving DecidableEq, Repr

/-- `stopAgent` (extension module lines 329-347): no-op when nothing
is tracked; on win32 an immediate forceful tree-kill; otherwise
SIGINT plus a scheduled 1500ms escalation timer (not scheduled when
the kill call throws — the catch swallows it); the `finally` block
always clears the tracked reference and resets the status bar. -/
def stopAgent (platform : String) (killThrows : Bool) (st : SupState) : StopOut :=
  match st.proc with
  | none => ⟨st, [], false⟩
  | some p =>
    if platform = "win32" then
      ⟨{ st with proc := none, statusRunning := false }, [.treeKill p], false⟩
    else if killThrows then
      ⟨{ st with proc := none, statusRunning := false }, [], false⟩
    else
      ⟨{ st with proc := none, statusRunning := false }, [.signal p "SIGINT"], true⟩

/-- The escalation timer callback (extension module line 337):
`() => proc && proc.kill("SIGKILL")` — it consults the module-level
tracked reference at fire time, 1500ms later, and SIGKILLs whatever
process is tracked then (nothing when the reference is clear). -/
def fireKillTimer (st : SupState) : List Action :=
  match st.proc with
  | some q => [.signal q "SIGKILL"]
  | none => []

/-- Whitespace tokenisation of the one-off-run input (line 366,
`input.trim().split(/\s+/)` on a non-blank trimmed string). -/
def wsSplitL : List Char → List Char → List String
  | [], acc => [⟨acc.reverse⟩]
  | c :: cs, acc =>
    if isWsChar c then ⟨acc.reverse⟩ :: wsSplitL cs []
    else wsSplitL cs (c :: acc)

/-- Split on whitespace runs, dropping empty tokens (the `/\s+/` split
of a trimmed non-blank string). -/
def splitWs (s : String) : List String :=
  (wsSplitL s.data []).filter (fun t => t ≠ "")

/-- `runOnce` (extension module lines 349-375): same binary/config
resolution as start, extra tokens appended from the input box, and the
spawned child is wired but never assigned to the tracked singleton. -/
def runOnce (env : Env) (st : SupState) : SupState × List Action :=
  let fc := env.fileCfg.getD {}
  let cwd := resolveCwd env fc
  let password := getPassword env.secret env.settings
  match resolveBinary env fc with
  | .error _ => (st, [])
  | .ok none =>
    (st, [.notifyWarn "Expose: no expose.path set and auto-install is disabled."])
  | .ok (some bin) =>
    match env.inputBox with
    | none => (st, [])
    | some input =>
      let argsInput := if strTrim input ≠ "" then splitWs (strTrim input) else []
      let args := buildArgsFromConfig env.settings fc password ++ argsInput
      ({ st with nextHandle := st.nextHandle + 1 },
       [.spawn bin args cwd st.nextHandle])

/-- The `error` handler installed by `wireProcess` (lines 378-386):
clears the tracked reference and resets the status bar only when the
erroring child is the tracked process. -/
def onErrorEvent (child : Nat) (st : SupState) : SupState :=
  if st.proc = some child then { st with proc := none, statusRunning := false }
  else st

/-- The `close` handler installed by `wireProcess` (lines 391-399):
clears the tracked reference and resets the status bar only when the
exiting child is the tracked process. -/
def onCloseEvent (child : Nat) (st : SupState) : SupState :=
  if st.proc = some child then { st with proc := none, statusRunning := false }
  else st

/-! Concrete fixtures used by the scenario, counterexample and witness
statements below. -/

/-- Settings of the §8 start scenario: host/ports/keepAlive set, no
file config, no password. -/
def scenarioSettings : Settings :=
  { sshHost := some "getexposed.io", sshPort := some 2200,
    localHost := some "localhost", localPort := some 7500,
    bindPort := some 0, keepAlive := some true }

/-- Settings with only the deprecated legacy password set. -/
def legacyPwSettings : Settings := { legacyPassword := some "legacypw" }

/-- File config with only an inline password. -/
def filePwConfig : ExposeFileConfig := { password := some "filepw" }

/-- Settings with a non-blank `expose.sshHost`. -/
def hostSettings : Settings := { sshHost := some "example.com" }

/-- File config whose `sshHost` is present but empty. -/
def emptyHostConfig : ExposeFileConfig := { sshHost := some "" }

/-- A release asset correctly named for the (linux, arm64) pair. -/
def armSixtyFourAsset : GHAsset := ⟨1, "expose_linux_arm64", "u1"⟩

/-- A release asset correctly named (second candidate form) for the
(linux, arm) pair. -/
def armAsset : GHAsset := ⟨2, "expose-linux-arm", "u2"⟩

/-- A supervisor state tracking process 7. -/
def trackedState : SupState := ⟨some 7, true, 8⟩

/-- An installer backend with nothing installed and no network. -/
def bareBackend : InstallBackend :=
  { binDir := "/gs/bin", platform := "linux", arch := "x64",
    managedExists := false, release := none, downloadOk := false }

/-- An environment with an explicit binary path whose spawns succeed. -/
def pathEnv : Env :=
  { settings := { path := some "/usr/bin/expose" }, secret := none,
    fileCfg := none, workspaceFolder := none, homedir := "/root",
    be := bareBackend, spawnOk := true, inputBox := none }

/-- An environment whose settings store has a binary path configured. -/
def settingsPathEnv : Env :=
  { settings := { path := some "/settings/expose" }, secret := none,
    fileCfg := none, workspaceFolder := none, homedir := "/root",
    be := bareBackend, spawnOk := true, inputBox := none }

/-! Claim theorems, preceded by shared helper lemmas. -/

lemma leadsWith_refl (l : List Char) : leadsWith l l = true := by
  induction l with
  | nil => rfl
  | cons a as ih => simp [leadsWith, ih]

lemma hasSubL_self (l : List Char) : hasSubL l l = true := by
  cases l with
  | nil => rfl
  | cons c cs => simp [hasSubL, leadsWith_refl]

lemma strIncludes_self (s : String) : strIncludes s s = true := by
  simp [strIncludes, hasSubL_self]

lemma ne_of_not_includes {s t : String} (h : strIncludes s t = false) : s ≠ t := by
  intro heq
  subst heq
  rw [strIncludes_self] at h
  exact Bool.noConfusion h

lemma find?_eq_some_of_unique {α : Type} {p : α → Bool} {l : List α} {a : α}
    (ha : a ∈ l) (hpa : p a = true)
    (huniq : ∀ b ∈ l, p b = true → b = a) :
    l.find? p = some a := by
  induction l with
  | nil => cases ha
  | cons x xs ih =>
    by_cases hx : p x = true
    · have hxa : x = a := huniq x (List.mem_cons_self x xs) hx
      subst hxa
      simp [List.find?, hx]
    · have hxa : x ≠ a := fun h => hx (h ▸ hpa)
      have ha' : a ∈ xs := by
        rcases List.mem_cons.mp ha with h | h
        · exact absurd h.symm hxa
        · exact h
      have hx' : p x = false := by simpa using hx
      simp only [List.find?, hx']
      exact ih ha' (fun b hb hpb => huniq b (List.mem_cons_of_mem _ hb) hpb)

lemma findCandidate_eq_none {assets : List GHAsset} {cs : List String}
    (h : ∀ b ∈ assets, ∀ c ∈ cs, strIncludes b.name c = false) :
    findCandidate assets cs = none := by
  induction cs with
  | nil => rfl
  | cons c cs ih =>
    have hex : assets.find? (fun a => a.name == c) = none := by
      rw [List.find?_eq_none]
      intro b hb
      simp only [beq_iff_eq]
      exact ne_of_not_includes (h b hb c (List.mem_cons_self c cs))
    have hinc : assets.find? (fun a => strIncludes a.name c) = none := by
      rw [List.find?_eq_none]
      intro b hb
      simp [h b hb c (List.mem_cons_self c cs)]
    simp only [findCandidate, hex, hinc]
    exact ih (fun b hb c' hc' => h b hb c' (List.mem_cons_of_mem _ hc'))

lemma findCandidate_unique {assets : List GHAsset} {a : GHAsset}
    (ha : a ∈ assets) {cs : List String}
    (hname : a.name ∈ cs)
    (hskip : ∀ c ∈ cs, c ≠ a.name → strIncludes a.name c = false)
    (hdecoy : ∀ b ∈ assets, b ≠ a → ∀ c ∈ cs, strIncludes b.name c = false) :
    findCandidate assets cs = some a := by
  induction cs with
  | nil => cases hname
  | cons c cs ih =>
    by_cases hc : a.name = c
    · have hfind : assets.find? (fun b => b.name == c) = some a := by
        apply find?_eq_some_of_unique ha (by simp [hc])
        intro b hb hbc
        by_contra hba
        have hinc := hdecoy b hb hba c (List.mem_cons_self c cs)
        rw [beq_iff_eq] at hbc
        rw [hbc, strIncludes_self] at hinc
        exact Bool.noConfusion hinc
      simp [findCandidate, hfind]
    · have hex : assets.find? (fun b => b.name == c) = none := by
        rw [List.find?_eq_none]
        intro b hb
        simp only [beq_iff_eq]
        by_cases hba : b = a
        · subst hba; exact fun h => hc h
        · exact ne_of_not_includes (hdecoy b hb hba c (List.mem_cons_self c cs))
      have hinc : assets.find? (fun b => strIncludes b.name c) = none := by
        rw [List.find?_eq_none]
        intro b hb
        by_cases hba : b = a
        · subst hba
          simp [hskip c (List.mem_cons_self c cs) (fun h => hc h.symm)]
        · simp [hdecoy b hb hba c (List.mem_cons_self c cs)]
      have hname' : a.name ∈ cs := by
        rcases List.mem_cons.mp hname with h | h
        · exact absurd h hc
        · exact h
      simp only [findCandidate, hex, hinc]
      exact ih hname' (fun c' hc' hne => hskip c' (List.mem_cons_of_mem _ hc') hne)
        (fun b hb hba c' hc' => hdecoy b hb hba c' (List.mem_cons_of_mem _ hc'))

lemma pickAsset_unique_of (platform arch : String)
    (hdist : ∀ c ∈ candidates (normOs platform) (normArch arch),
      ∀ c' ∈ candidates (normOs platform) (normArch arch),
        c ≠ c' → strIncludes c c' = false)
    {assets : List GHAsset} {a : GHAsset} (ha : a ∈ assets)
    (hname : a.name ∈ candidates (normOs platform) (normArch arch))
    (hdecoy : ∀ b ∈ assets, b ≠ a →
      ∀ c ∈ candidates (normOs platform) (normArch arch),
        strIncludes b.name c = false) :
    pickAsset platform arch assets = some a := by
  have h := findCandidate_unique ha hname
    (fun c hc hne => hdist a.name hname c hc (fun h => hne h.symm)) hdecoy
  simp [pickAsset, h]

/-- C1: argument-vector construction for direct-binary mode is
deterministic (two constructions from the same input are identical);
the §8 scenario settings with no file config and no password yield
exactly `["-s","getexposed.io","-p","2200","-ls","localhost","-lp",
"7500","-bp","0","-a"]`; and for every input the vector contains the
unconditional `-bp <bindPort>` pair in its fixed position between the
`-lp` and `-id` segments, even when `bindPort` is zero. -/
theorem c1_buildArgs_deterministic_order :
    (∀ (s : Settings) (fc : ExposeFileConfig) (pw : String),
      buildArgsFromConfig s fc pw = buildArgsFromConfig s fc pw) ∧
    buildArgsFromConfig scenarioSettings {} "" =
      ["-s", "getexposed.io", "-p", "2200", "-ls", "localhost",
       "-lp", "7500", "-bp", "0", "-a"] ∧
    (∀ (s : Settings) (fc : ExposeFileConfig) (pw : String),
      ∃ l1 l2, buildArgsFromConfig s fc pw =
        l1 ++ "-bp" ::
          toString (if effBindPort s fc = 0 then 0 else effBindPort s fc) :: l2) := by
  refine ⟨fun _ _ _ => rfl, by decide, ?_⟩
  intro s fc pw
  refine ⟨(if effSshHost s fc ≠ "" then ["-s", effSshHost s fc] else []) ++
      ((if effSshPort s fc ≠ 0 then ["-p", toString (effSshPort s fc)] else []) ++
        ((if effLocalHost s fc ≠ "" then ["-ls", effLocalHost s fc] else []) ++
          (if effLocalPort s fc ≠ 0 then ["-lp", toString (effLocalPort s fc)] else []))),
    (if effId s fc ≠ "" then ["-id", effId s fc] else []) ++
      ((if resolvedPassword fc pw ≠ "" then ["-pw", resolvedPassword fc pw] else []) ++
        ((if effKeepAlive s fc then ["-a"] else []) ++
          ((if effAutoReconnect s fc then ["-r"] else []) ++ cleanExtraArgs s fc))), ?_⟩
  simp [buildArgsFromConfig, List.append_assoc]

/-- C2: the claimed precedence SecretStore > FileConfig > SettingsStore
is violated by the code at this input: with the secret store empty, the
legacy settings-store password `"legacypw"` and the file-config inline
password `"filepw"`, the resolved `-pw` value is `"legacypw"` — the
legacy setting wins over the file config, contradicting both the claim
and the code's own comment (`SecretStorage > config file password >
legacy setting`). -/
theorem c2_password_precedence_code_bug :
    getPassword none legacyPwSettings = "legacypw" ∧
    resolvedPassword filePwConfig (getPassword none legacyPwSettings) = "legacypw" ∧
    resolvedPassword filePwConfig (getPassword none legacyPwSettings) ≠ "filepw" ∧
    buildArgsFromConfig legacyPwSettings filePwConfig
        (getPassword none legacyPwSettings) =
      ["-s", "getexposed.io", "-p", "2200", "-ls", "localhost", "-lp", "7500",
       "-bp", "0", "-pw", "legacypw"] := by
  decide

/-- C3 counterexample: with the settings store holding
`sshHost = "example.com"` and the file config holding the present but
empty string `sshHost = ""`, the effective value is `""` — the flag is
omitted — not the settings value `"example.com"` the claim requires:
an empty string in a higher-precedence source does NOT fall through. -/
theorem c3_blank_counterexample :
    hostSettings.sshHost = some "example.com" ∧
    emptyHostConfig.sshHost = some "" ∧
    effSshHost hostSettings emptyHostConfig ≠ "example.com" ∧
    effSshHost hostSettings emptyHostConfig = "" ∧
    buildArgsFromConfig hostSettings emptyHostConfig "" =
      ["-p", "2200", "-ls", "localhost", "-lp", "7500", "-bp", "0"] ∧
    "-s" ∉ buildArgsFromConfig hostSettings emptyHostConfig "" := by
  decide

/-- C3 amended: a string field *absent* from the file config falls
through to the settings value, else the default (conjuncts 1-4:
sshHost, localHost, id, composeFile); a *present* file-config string is
used after trimming, so a blank one yields the empty effective value
and masks the lower-precedence sources rather than falling through
(conjuncts 5-8); a blank file cwd makes `resolveCwd` skip the settings
cwd and fall to the workspace-folder/home default (conjunct 9); only
the binary path behaves as originally claimed: a blank explicit path
falls through to the settings path via the installer's own settings
read (conjunct 10). -/
theorem c3_blank_handling_amended :
    (∀ (s : Settings) (fc : ExposeFileConfig), fc.sshHost = none →
      effSshHost s fc = strTrim (s.sshHost.getD "getexposed.io")) ∧
    (∀ (s : Settings) (fc : ExposeFileConfig), fc.localHost = none →
      effLocalHost s fc = strTrim (s.localHost.getD "localhost")) ∧
    (∀ (s : Settings) (fc : ExposeFileConfig), fc.id = none →
      effId s fc = strTrim (s.id.getD "")) ∧
    (∀ (s : Settings) (fc : ExposeFileConfig), fc.composeFile = none →
      effComposeFile s fc = strTrim (s.composeFile.getD "")) ∧
    (∀ (s : Settings) (fc : ExposeFileConfig) (v : String), fc.sshHost = some v →
      effSshHost s fc = strTrim v) ∧
    (∀ (s : Settings) (fc : ExposeFileConfig) (v : String), fc.localHost = some v →
      effLocalHost s fc = strTrim v) ∧
    (∀ (s : Settings) (fc : ExposeFileConfig) (v : String), fc.id = some v →
      effId s fc = strTrim v) ∧
    (∀ (s : Settings) (fc : ExposeFileConfig) (v : String), fc.composeFile = some v →
      effComposeFile s fc = strTrim v) ∧
    (∀ (env : Env) (fc : ExposeFileConfig) (v : String), fc.cwd = some v →
      strTrim v = "" →
      resolveCwd env fc =
        (match env.workspaceFolder with
         | some f => if f ≠ "" then f else env.homedir
         | none => env.homedir)) ∧
    (∀ (env : Env) (fc : ExposeFileConfig) (v p : String), fc.path = some v →
      strTrim v = "" → env.settings.path = some p → strTrim p ≠ "" →
      resolveBinary env fc = .ok (some (strTrim p))) := by
  refine ⟨?_, ?_, ?_, ?_, ?_, ?_, ?_, ?_, ?_, ?_⟩
  · intro s fc h; simp [effSshHost, h]
  · intro s fc h; simp [effLocalHost, h]
  · intro s fc h; simp [effId, h]
  · intro s fc h; simp [effComposeFile, h]
  · intro s fc v h; simp [effSshHost, h]
  · intro s fc v h; simp [effLocalHost, h]
  · intro s fc v h; simp [effId, h]
  · intro s fc v h; simp [effComposeFile, h]
  · intro env fc v h hb; simp [resolveCwd, h, hb]
  · intro env fc v p hv hb hp hpt
    simp [resolveBinary, hv, hb, ensureExpose, hp, hpt]

/-- C3 witness: a blank file-config path with the settings path
`/settings/expose` resolves to the settings path. -/
theorem c3_blank_handling_witness :
    resolveBinary settingsPathEnv { path := some "   " } =
      .ok (some (strTrim "/settings/expose")) :=
  c3_blank_handling_amended.2.2.2.2.2.2.2.2.2 settingsPathEnv { path := some "   " }
    "   " "/settings/expose" rfl (by decide) rfl (by decide)

/-- C4: the claimed SIGKILL escalation never happens.  Stopping the
tracked process 7 on a signal-capable platform sends SIGINT and
schedules the 1500ms timer, but the `finally` block clears the tracked
reference synchronously, so when the timer fires its
`proc && proc.kill("SIGKILL")` guard sees no tracked process and sends
nothing — process 7 is never SIGKILLed even if it ignored SIGINT.
Worse, if a new agent (handle 8) is started within the grace period,
the pending timer SIGKILLs the new process instead. -/
theorem c4_stop_escalation_code_bug :
    (stopAgent "linux" false trackedState).actions = [.signal 7 "SIGINT"] ∧
    (stopAgent "linux" false trackedState).timerScheduled = true ∧
    (stopAgent "linux" false trackedState).state.proc = none ∧
    fireKillTimer (stopAgent "linux" false trackedState).state = [] ∧
    (startAgent pathEnv (stopAgent "linux" false trackedState).state).1.proc =
      some 8 ∧
    fireKillTimer (startAgent pathEnv (stopAgent "linux" false trackedState).state).1 =
      [.signal 8 "SIGKILL"] := by
  decide

/-- C5 counterexample: for the supported pair (linux, arm), the list
containing the decoy `expose_linux_arm64` (correctly named for the
other pair (linux, arm64)) together with the unique correctly-named
asset `expose-linux-arm` makes `pickAsset` return the decoy: the first
candidate `expose_linux_arm` has no exact match, and its
substring-contains fallback hits `expose_linux_arm64` before the
second candidate form is ever tried. -/
theorem c5_decoy_counterexample :
    armAsset.name ∈ candidates (normOs "linux") (normArch "arm") ∧
    armSixtyFourAsset.name ∉ candidates (normOs "linux") (normArch "arm") ∧
    armSixtyFourAsset.name ∈ candidates (normOs "linux") (normArch "arm64") ∧
    pickAsset "linux" "arm" [armSixtyFourAsset, armAsset] =
      some armSixtyFourAsset ∧
    pickAsset "linux" "arm" [armSixtyFourAsset, armAsset] ≠ some armAsset := by
  decide

/-- C5 amended: for every supported platform/arch pair, `pickAsset` on
a list containing exactly one correctly-named asset for that pair
returns that asset for every ordering and every set of decoys,
*provided no decoy's name contains one of the pair's three candidate
strings as a substring* (dropped, this proviso fails on arm/arm64
decoys); per candidate an exact name match is preferred over a
substring match; and `pickAsset` returns `none` when every candidate
and the broad expose+os+arch fallback fail on every asset. -/
theorem c5_pickAsset_amended :
    (∀ platform ∈ ["win32", "darwin", "linux"], ∀ arch ∈ ["x64", "arm64", "arm"],
      ∀ (assets : List GHAsset) (a : GHAsset), a ∈ assets →
        a.name ∈ candidates (normOs platform) (normArch arch) →
        (∀ b ∈ assets, b ≠ a → ∀ c ∈ candidates (normOs platform) (normArch arch),
          strIncludes b.name c = false) →
        pickAsset platform arch assets = some a) ∧
    (∀ (assets : List GHAsset) (w : String) (ws : List String) (a : GHAsset),
      assets.find? (fun b => b.name == w) = some a →
      findCandidate assets (w :: ws) = some a) ∧
    (∀ (platform arch : String) (assets : List GHAsset),
      (∀ b ∈ assets,
        (∀ c ∈ candidates (normOs platform) (normArch arch),
          strIncludes b.name c = false) ∧
          broadMatch (normOs platform) (normArch arch) b = false) →
      pickAsset platform arch assets = none) := by
  refine ⟨?_, ?_, ?_⟩
  · intro platform hp arch harch assets a ha hname hdecoy
    simp only [List.mem_cons, List.mem_singleton, List.not_mem_nil, or_false]
      at hp harch
    rcases hp with rfl | rfl | rfl <;> rcases harch with rfl | rfl | rfl <;>
      exact pickAsset_unique_of _ _ (by decide) ha hname hdecoy
  · intro assets w ws a hfind
    simp [findCandidate, hfind]
  · intro platform arch assets h
    have h1 : findCandidate assets (candidates (normOs platform) (normArch arch)) =
        none :=
      findCandidate_eq_none (fun b hb => (h b hb).1)
    have h2 : assets.find? (broadMatch (normOs platform) (normArch arch)) = none := by
      rw [List.find?_eq_none]
      intro b hb
      simp [(h b hb).2]
    simp [pickAsset, h1, h2]

/-- C5 witness: the lone, correctly-named (linux, arm) asset is
picked. -/
theorem c5_pickAsset_witness :
    pickAsset "linux" "arm" [armAsset] = some armAsset :=
  c5_pickAsset_amended.1 "linux" (by decide) "arm" (by decide) [armAsset] armAsset
    (by decide) (by decide) (by decide)

/-- C6: `ensureExpose` with `installIfMissing = false` fails with
`notInstalled` exactly when no non-blank user path is configured and no
file exists at the deterministic managed path; a configured non-blank
path is returned (trimmed) with no effects and no dependence on
whether anything exists on disk; and with a file at the managed path
that path is returned. -/
theorem c6_ensure_not_installed :
    (∀ (s : Settings) (be : InstallBackend),
      (ensureExpose s be false).1 = .error .notInstalled ↔
        strTrim (s.path.getD "") = "" ∧ be.managedExists = false) ∧
    (∀ (s : Settings) (be : InstallBackend) (p : String) (installIfMissing : Bool),
      s.path = some p → strTrim p ≠ "" →
      ensureExpose s be installIfMissing = (.ok (strTrim p), [])) ∧
    (∀ (s : Settings) (be : InstallBackend),
      strTrim (s.path.getD "") = "" → be.managedExists = true →
      ensureExpose s be false = (.ok (managedBinPath be), [])) := by
  refine ⟨?_, ?_, ?_⟩
  · intro s be
    simp only [ensureExpose]
    split_ifs with h1 h2 <;> simp_all
  · intro s be p im hp hpt
    simp [ensureExpose, hp, hpt]
  · intro s be h1 h2
    simp [ensureExpose, h1, h2]

/-- C6 witness: a configured path with surrounding blanks is returned
trimmed, with nothing installed and no effects. -/
theorem c6_ensure_witness :
    ensureExpose { path := some " /x/expose " } bareBackend false =
      (.ok (strTrim " /x/expose "), []) :=
  c6_ensure_not_installed.2.1 { path := some " /x/expose " } bareBackend
    " /x/expose " false rfl (by decide)

/-- C7: with no explicit user path and a file already present at the
deterministic managed path, `ensureExpose` with `installIfMissing =
true` returns that path with an empty effect list: no release-metadata
fetch, no download, no copy, no chmod. -/
theorem c7_ensure_cached_no_network :
    ∀ (s : Settings) (be : InstallBackend),
      strTrim (s.path.getD "") = "" → be.managedExists = true →
      ensureExpose s be true = (.ok (managedBinPath be), []) := by
  intro s be h1 h2
  simp [ensureExpose, h1, h2]

/-- C7 witness: a cached install is returned with no effects. -/
theorem c7_ensure_cached_witness :
    ensureExpose {} { bareBackend with managedExists := true } true =
      (.ok (managedBinPath { bareBackend with managedExists := true }), []) :=
  c7_ensure_cached_no_network {} { bareBackend with managedExists := true }
    (by decide) rfl

/-- C8: a start request while a process is tracked returns the state
unchanged and emits exactly the informational notice — no spawn, no
change to the tracked process, its handle, or the status. -/
theorem c8_start_rejected_when_tracked :
    ∀ (env : Env) (st : SupState) (p : Nat), st.proc = some p →
      startAgent env st = (st, [.notifyInfo "Expose agent is already running."]) := by
  intro env st p h
  simp [startAgent, h]

/-- C8 witness: starting over the tracked state is rejected with the
notice and the state is returned unchanged. -/
theorem c8_start_rejected_witness :
    startAgent pathEnv trackedState =
      (trackedState, [.notifyInfo "Expose agent is already running."]) :=
  c8_start_rejected_when_tracked pathEnv trackedState 7 rfl

/-- C9: the tracked reference is never left set-but-dead: after any
stop request the tracked reference is `none` (and the status is reset
whenever something was tracked — including when the kill call throws,
via the `finally` block); the error and close handlers clear the
reference and reset the status when the terminating child is the
tracked process; and a failed spawn from the Idle state leaves the
supervisor Idle with the status reset. -/
theorem c9_no_set_but_dead :
    (∀ (platform : String) (killThrows : Bool) (st : SupState),
      (stopAgent platform killThrows st).state.proc = none) ∧
    (∀ (platform : String) (killThrows : Bool) (st : SupState) (p : Nat),
      st.proc = some p →
      (stopAgent platform killThrows st).state.statusRunning = false) ∧
    (∀ (child : Nat) (st : SupState), st.proc = some child →
      (onErrorEvent child st).proc = none ∧
        (onErrorEvent child st).statusRunning = false) ∧
    (∀ (child : Nat) (st : SupState), st.proc = some child →
      (onCloseEvent child st).proc = none ∧
        (onCloseEvent child st).statusRunning = false) ∧
    (∀ (env : Env) (st : SupState), env.spawnOk = false → st.proc = none →
      st.statusRunning = false →
      (startAgent env st).1.proc = none ∧
        (startAgent env st).1.statusRunning = false) := by
  refine ⟨?_, ?_, ?_, ?_, ?_⟩
  · intro platform killThrows st
    cases h : st.proc with
    | none => simp [stopAgent, h]
    | some p =>
      simp only [stopAgent, h]
      split_ifs <;> rfl
  · intro platform killThrows st p h
    simp only [stopAgent, h]
    split_ifs <;> rfl
  · intro child st h
    simp [onErrorEvent, h]
  · intro child st h
    simp [onCloseEvent, h]
  · intro env st hspawn hproc hstatus
    simp only [startAgent, hproc, hspawn]
    by_cases h1 : effComposeFile env.settings (env.fileCfg.getD {}) ≠ ""
    · rw [if_pos h1]
      simp
    · rw [if_neg h1]
      cases hrb : resolveBinary env (env.fileCfg.getD {}) with
      | error e => simp [hrb]
      | ok o =>
        cases o with
        | none => simp [hrb, hproc, hstatus]
        | some bin => simp [hrb]

/-- C9 witness: the error handler for the tracked child clears the
reference and resets the status. -/
theorem c9_no_set_but_dead_witness :
    (onErrorEvent 5 ⟨some 5, true, 6⟩).proc = none ∧
      (onErrorEvent 5 ⟨some 5, true, 6⟩).statusRunning = false :=
  c9_no_set_but_dead.2.2.1 5 ⟨some 5, true, 6⟩ rfl

/-- C10: a one-off run never assigns its child to the tracked
singleton: the tracked reference and status are unchanged by `runOnce`;
any process it spawns has a handle distinct from the tracked one (by
handle freshness); and the shared error/close handlers are frame-exact
— they leave the state untouched unless the terminating child is the
tracked process, and any mutation implies the child was tracked. -/
theorem c10_runOnce_frame :
    (∀ (env : Env) (st : SupState),
      (runOnce env st).1.proc = st.proc ∧
        (runOnce env st).1.statusRunning = st.statusRunning) ∧
    (∀ (env : Env) (st : SupState) (p : Nat), st.proc = some p →
      p < st.nextHandle →
      ∀ (cmd : String) (args : List String) (cwd : String) (h : Nat),
        Action.spawn cmd args cwd h ∈ (runOnce env st).2 → h ≠ p) ∧
    (∀ (child : Nat) (st : SupState), st.proc ≠ some child →
      onErrorEvent child st = st ∧ onCloseEvent child st = st) ∧
    (∀ (child : Nat) (st : SupState), onErrorEvent child st ≠ st →
      st.proc = some child) ∧
    (∀ (child : Nat) (st : SupState), onCloseEvent child st ≠ st →
      st.proc = some child) := by
  refine ⟨?_, ?_, ?_, ?_, ?_⟩
  · intro env st
    simp only [runOnce]
    cases hrb : resolveBinary env (env.fileCfg.getD {}) with
    | error e => simp
    | ok o =>
      cases o with
      | none => simp
      | some bin =>
        cases hin : env.inputBox with
        | none => simp
        | some input => simp
  · intro env st p hp hlt cmd args cwd h hmem
    simp only [runOnce] at hmem
    cases hrb : resolveBinary env (env.fileCfg.getD {}) with
    | error e => rw [hrb] at hmem; simp at hmem
    | ok o =>
      cases o with
      | none => rw [hrb] at hmem; simp at hmem
      | some bin =>
        rw [hrb] at hmem
        cases hin : env.inputBox with
        | none => rw [hin] at hmem; simp at hmem
        | some input =>
          rw [hin] at hmem
          simp at hmem
          omega
  · intro child st h
    constructor <;> simp [onErrorEvent, onCloseEvent, h]
  · intro child st h
    by_contra hne
    exact h (by simp [onErrorEvent, hne])
  · intro child st h
    by_contra hne
    exact h (by simp [onCloseEvent, hne])

/-- C10 witness: events of an untracked child (9) leave the state
that tracks process 7 unchanged. -/
theorem c10_runOnce_frame_witness :
    onErrorEvent 9 trackedState = trackedState ∧
      onCloseEvent 9 trackedState = trackedState :=
  c10_runOnce_frame.2.2.1 9 trackedState (by decide)

end Expose
